import Mathlib

/-!
Verification of the RyByteInterpreter core (lexer, compiler, stack VM)
against its specification, by a shallow embedding of the relevant C++
source (src/misc/include/value.h, src/misc/src/value.cpp,
src/vm/src/vm.cpp, src/middleend/src/compiler.cpp,
src/backend/src/lexer.cpp, src/main.cpp) into Lean.

Modelling conventions:
* IEEE-754 doubles are embedded as exact rationals (ℚ).  Every numeric
  input appearing in a theorem below is a small integer, for which
  double arithmetic is exact, so no rounding behaviour is lost.
* C++ heap values (lists, maps, instances, ...) are shared mutable
  objects; the embedding carries their contents by value.  Pointer
  identity of heap objects is never compared by any theorem below.
* The VM's value stack (RyValue stack[256] with stackTop cursor) is a
  Lean list whose head is the BOTTOM of the stack; the cursor
  stackTop - stack is the list length.
* Fallible opcodes return explicit result types instead of using goto.
-/

namespace RySpec

/-- The tagged value variant, from value.h lines 35-65
(std::variant of monostate, Native, Func, Closure, double, bool,
string, List, RyRange, Map, Instance, Class, BoundMethod).
Payloads that no claim inspects (chunk bodies, upvalue handles,
function pointers) are summarized by their identifying data. -/
inductive RyValue : Type
  | nil : RyValue
  | boolean (b : Bool) : RyValue
  | num (d : ℚ) : RyValue
  | str (s : String) : RyValue
  | list (xs : List RyValue) : RyValue
  | map (entries : List (RyValue × RyValue)) : RyValue
  | range (rstart rend : ℚ) : RyValue
  | func (name : String) (arity : Nat) (upvalueCount : Nat) : RyValue
  | closure (name : String) (arity : Nat) (upvalueCount : Nat) : RyValue
  | native (name : String) (arity : Nat) : RyValue
  | inst (className : String) (fields : List (String × RyValue))
      (classMethods : List (String × RyValue)) : RyValue
  | cls (name : String) (methods : List (String × RyValue)) : RyValue
  | boundMethod (receiver : RyValue) (method : RyValue) : RyValue

namespace RyValue

/-- value.h line 67: isNil. -/
def isNil : RyValue → Bool
  | .nil => true
  | _ => false

/-- value.h line 68: isNumber. -/
def isNumber : RyValue → Bool
  | .num _ => true
  | _ => false

/-- value.h line 69: isBool. -/
def isBool : RyValue → Bool
  | .boolean _ => true
  | _ => false

/-- value.h line 70: isString. -/
def isString : RyValue → Bool
  | .str _ => true
  | _ => false

/-- value.h line 71: isList. -/
def isList : RyValue → Bool
  | .list _ => true
  | _ => false

/-- value.h line 72: isMap. -/
def isMap : RyValue → Bool
  | .map _ => true
  | _ => false

/-- value.h line 74: isInstance. -/
def isInstance : RyValue → Bool
  | .inst _ _ _ => true
  | _ => false

/-- value.h line 76: isClass. -/
def isClass : RyValue → Bool
  | .cls _ _ => true
  | _ => false

/-- value.h line 77: isRange. -/
def isRange : RyValue → Bool
  | .range _ _ => true
  | _ => false

/-- value.h lines 81-87: asNumber returns the payload for a number and
0 (after printing a diagnostic) for every other kind. -/
def asNumber : RyValue → ℚ
  | .num d => d
  | _ => 0

end RyValue

/-- The C++ cast `(int) d` of a double: truncation toward zero. -/
def ratTrunc (q : ℚ) : ℤ :=
  if 0 ≤ q then ⌊q⌋ else ⌈q⌉

/-- Fixed 6-decimal rendering of a rational, following std::to_string
on a double (%f with 6 digits).  Ties are rounded half away from zero;
the claims below only ever format integral values, where this is
exact. -/
def fixed6 (q : ℚ) : String :=
  let scaled : ℤ := if 0 ≤ q then ⌊q * 1000000 + 1/2⌋ else -⌊-q * 1000000 + 1/2⌋
  let sign := if scaled < 0 then "-" else ""
  let n := scaled.natAbs
  let intPart := n / 1000000
  let fracPart := n % 1000000
  let fracDigits := toString fracPart
  let padded := String.mk (List.replicate (6 - fracDigits.length) '0') ++ fracDigits
  sign ++ toString intPart ++ "." ++ padded

/-- value.cpp lines 50-54: std::to_string(double), then erase the
trailing zeros, then a trailing dot if one is left. -/
def numToString (q : ℚ) : String :=
  let s := (fixed6 q).toList
  let s := (s.reverse.dropWhile (fun c => c = '0')).reverse
  let s := if s.getLast? = some '.' then s.dropLast else s
  String.mk s

mutual

/-- RyValue::to_string, value.cpp lines 46-100. -/
def ryToString : RyValue → String
  | .str s => s
  | .num d => numToString d
  | .boolean b => if b then "true" else "false"
  | .nil => "null"
  | .list xs => "[" ++ ryToStringElems xs ++ "]"
  | .map entries => "\x7b" ++ ryToStringEntries entries ++ "\x7d"
  | .func _ _ _ => "<function>"
  | .inst className _ _ => className ++ " instance"
  | .range s e => toString (ratTrunc s) ++ ".." ++ toString (ratTrunc e)
  | .native _ _ => "<native>"
  | .closure _ _ _ => "<closure>"
  | .cls name _ => name
  | .boundMethod _ _ => "<bound method>"

/-- List elements joined by ", " (value.cpp lines 60-70). -/
def ryToStringElems : List RyValue → String
  | [] => ""
  | [x] => ryToString x
  | x :: y :: xs => ryToString x ++ ", " ++ ryToStringElems (y :: xs)

/-- Map entries "key: value" joined by ", " (value.cpp lines 71-82). -/
def ryToStringEntries : List (RyValue × RyValue) → String
  | [] => ""
  | [(k, v)] => ryToString k ++ ": " ++ ryToString v
  | (k, v) :: e :: es => ryToString k ++ ": " ++ ryToString v ++ ", " ++ ryToStringEntries (e :: es)

end

mutual

/-- RyValue::operator==, value.h line 167: equality of the variants.
In C++ the heap-allocated alternatives compare by pointer identity;
the embedding compares their payloads structurally.  No theorem below
compares two heap values, so the two semantics agree on every use
(the only probes are strings and numbers, where C++ equality is
structural as well). -/
def ryValueEq : RyValue → RyValue → Bool
  | .nil, .nil => true
  | .boolean a, .boolean b => a = b
  | .num a, .num b => a = b
  | .str a, .str b => a = b
  | .range a b, .range c d => a = c ∧ b = d
  | .list a, .list b => ryValueEqList a b
  | .map a, .map b => ryValueEqEntries a b
  | .func n a u, .func n' a' u' => n = n' ∧ a = a' ∧ u = u'
  | .closure n a u, .closure n' a' u' => n = n' ∧ a = a' ∧ u = u'
  | .native n a, .native n' a' => n = n' ∧ a = a'
  | .inst c f m, .inst c' f' m' => c = c' ∧ ryValueEqFields f f' ∧ ryValueEqFields m m'
  | .cls n m, .cls n' m' => n = n' ∧ ryValueEqFields m m'
  | .boundMethod r m, .boundMethod r' m' => ryValueEq r r' && ryValueEq m m'
  | _, _ => false

/-- Elementwise list equality for ryValueEq. -/
def ryValueEqList : List RyValue → List RyValue → Bool
  | [], [] => true
  | x :: xs, y :: ys => ryValueEq x y && ryValueEqList xs ys
  | _, _ => false

/-- Entrywise map-content equality for ryValueEq. -/
def ryValueEqEntries : List (RyValue × RyValue) → List (RyValue × RyValue) → Bool
  | [], [] => true
  | (k, v) :: xs, (k', v') :: ys => ryValueEq k k' && ryValueEq v v' && ryValueEqEntries xs ys
  | _, _ => false

/-- Fieldwise equality (name → value maps of instances/classes). -/
def ryValueEqFields : List (String × RyValue) → List (String × RyValue) → Bool
  | [], [] => true
  | (k, v) :: xs, (k', v') :: ys => (k = k') && ryValueEq v v' && ryValueEqFields xs ys
  | _, _ => false

end

/-- Lookup in a Ry map (std::unordered_map keyed by RyValue with
RyValue::operator==), as used by OP_GET_INDEX / OP_GET_PROPERTY. -/
def mapFind (entries : List (RyValue × RyValue)) (key : RyValue) : Option RyValue :=
  match entries with
  | [] => none
  | (k, v) :: rest => if ryValueEq k key then some v else mapFind rest key

/-- RyValue::operator!, value.cpp lines 4-9: boolean negation on a
bool, nil on everything else. -/
def ryNot : RyValue → RyValue
  | .boolean b => .boolean (!b)
  | _ => .nil

/-- RyValue::operator/, value.cpp lines 120-125: numeric quotient on
two numbers, otherwise string concatenation of the to_strings. -/
def ryDiv (a b : RyValue) : RyValue :=
  match a, b with
  | .num x, .num y => .num (x / y)
  | _, _ => .str (ryToString a ++ ryToString b)

/-- VM::isTruthy, vm.cpp lines 116-124: nil is false, a number is true
iff nonzero, a bool is itself, everything else is true. -/
def isTruthy : RyValue → Bool
  | .nil => false
  | .num d => decide (d ≠ 0)
  | .boolean b => b
  | _ => true

end RySpec

namespace RySpec

/-! ## VM state (vm.h, src/unnamed/part_001) -/

/-- vm.h line 77: the value stack holds at most 256 slots. -/
def STACK_MAX : Nat := 256

/-- vm.h line 68: `CallFrame frames[64]` — the call stack is a fixed
array of 64 frames. -/
def FRAMES_MAX : Nat := 64

/-- Chunk, chunk.h lines 64-76: code bytes with parallel source
positions. -/
structure ChunkM where
  code : List Nat
  lines : List Nat
  columns : List Nat

/-- CallFrame, vm.h lines 31-35.  `ip` is the index (into the chunk's
code vector) of the next byte to execute; `slots` is the stack index
where the frame begins. -/
structure CallFrameM where
  ip : Nat
  chunk : ChunkM
  slots : Nat

/-- ControlBlock, vm.h lines 38-42. -/
structure ControlBlock where
  stackDepth : Nat
  handlerIP : Nat
  frameDepth : Nat

/-- InterpretResult, vm.h line 45. -/
inductive InterpretResult : Type
  | ok
  | compileError
  | runtimeError
deriving DecidableEq

/-- The VM state components the claims quantify over (vm.h lines
60-79).  The value stack is listed bottom-first (its length is the
stackTop cursor); `openUpvalues` holds the stack locations of the open
upvalues, in the descending order the VM maintains; the head of
`panicStack` is the most recently pushed ControlBlock
(vector back). -/
structure VMState where
  stack : List RyValue
  frames : List CallFrameM
  frameCount : Nat
  openUpvalues : List Nat
  panicStack : List ControlBlock

/-- VM::push, vm.cpp lines 46-49. -/
def vmPush (st : VMState) (v : RyValue) : VMState :=
  { st with stack := st.stack ++ [v] }

/-- VM::pop, vm.cpp lines 51-54.  Popping an empty stack reads below
the stack base in C++ (caught as underflow at the next dispatch); the
embedding returns nil there, and every theorem below supplies a
non-empty stack. -/
def vmPop (st : VMState) : RyValue × VMState :=
  (st.stack.getLastD RyValue.nil, { st with stack := st.stack.dropLast })

/-- VM::closeUpvalues, vm.cpp lines 131-138: pop (and close) open
upvalues while the head location is ≥ last. -/
def closeUpvalues (openUpvalues : List Nat) (last : Nat) : List Nat :=
  openUpvalues.dropWhile (fun loc => decide (last ≤ loc))

/-- Outcome of the panic protocol (OP_PANIC / trigger_panic):
either the interpreter halts with INTERPRET_RUNTIME_ERROR (after
reporting at the recorded source position when a frame exists), or
control is transferred to a handler and execution continues. -/
inductive PanicResult : Type
  | halted (reported : Option (Nat × Nat)) (msg : String) (result : InterpretResult)
  | recovered (st : VMState)

/-- OP_PANIC / trigger_panic, vm.cpp lines 402-430.  Pops the message;
with an empty panicStack reports at the current instruction's (line,
column) and returns INTERPRET_RUNTIME_ERROR; otherwise pops the top
ControlBlock, restores frameCount and stackTop from it, closes the
upvalues at or above the new stackTop, pushes the message, and moves
the (new) current frame's ip to the block's handlerIP. -/
def opPanic (st : VMState) : PanicResult :=
  let (message, st0) := vmPop st
  let output := if message.isNil then "Unknown Panic" else ryToString message
  match st0.panicStack with
  | [] =>
      let reported : Option (Nat × Nat) :=
        if 0 < st0.frameCount then
          match st0.frames[st0.frameCount - 1]? with
          | some frame =>
              some (frame.chunk.lines.getD (frame.ip - 1) 0,
                    frame.chunk.columns.getD (frame.ip - 1) 0)
          | none => none
        else none
      .halted reported output .runtimeError
  | block :: rest =>
      let frameCount' := block.frameDepth
      let stack' := st0.stack.take block.stackDepth
      let open' := closeUpvalues st0.openUpvalues block.stackDepth
      let frames' :=
        match st0.frames[frameCount' - 1]? with
        | some f => st0.frames.set (frameCount' - 1) { f with ip := block.handlerIP }
        | none => st0.frames
      .recovered
        { stack := stack' ++ [RyValue.str output]
          frames := frames'
          frameCount := frameCount'
          openUpvalues := open'
          panicStack := rest }

/-- OP_ATTEMPT, vm.cpp lines 610-619: push a ControlBlock recording the
current stack depth, the current frame depth, and the handler address
(the ip after the 16-bit operand, plus the jump offset). -/
def opAttempt (st : VMState) (ipAfterOperand : Nat) (jumpOffset : Nat) : VMState :=
  { st with
    panicStack :=
      { stackDepth := st.stack.length
        handlerIP := ipAfterOperand + jumpOffset
        frameDepth := st.frameCount } :: st.panicStack }

/-- Result of one opcode execution: continue dispatching, enter the
panic protocol (vm.cpp's goto trigger_panic after runtimeError pushed
the message), or — only for OP_SET_INDEX on a list — perform the raw
vector write `(*list)[i] = value`, which vm.cpp line 811 issues with
no bounds check (an out-of-range i accesses storage outside the
list). -/
inductive StepResult : Type
  | next (st : VMState)
  | panicked (r : PanicResult)
  | listStore (st : VMState) (xs : List RyValue) (i : ℤ) (v : RyValue)

/-- runtimeError(msg) followed by goto trigger_panic: runtimeError
(vm.cpp lines 93-101) pushes the formatted message onto the stack, and
the trigger_panic label pops it back off as the panic payload. -/
def panicWith (st : VMState) (msg : String) : StepResult :=
  .panicked (opPanic (vmPush st (RyValue.str msg)))

/-- OP_DIVIDE, vm.cpp lines 265-278: pop b then a; if b's numeric view
is zero, push "Division by zero" and enter the panic protocol;
otherwise push a / b. -/
def opDivide (st : VMState) : StepResult :=
  let (b, st1) := vmPop st
  let (a, st2) := vmPop st1
  if b.asNumber = 0 then
    panicWith st2 "Division by zero"
  else
    .next (vmPush st2 (ryDiv a b))

/-- OP_NOT, vm.cpp lines 283-286: push the RyValue::operator! of the
popped value. -/
def opNot (st : VMState) : StepResult :=
  let (v, st1) := vmPop st
  .next (vmPush st1 (ryNot v))

/-- OP_GET_INDEX, vm.cpp lines 642-687: pop index then object; lists
check that the index is a number and inside [0, size) (else panic
"List index out of bounds."); maps look the key up; strings index
read-only; anything else panics. -/
def opGetIndex (st : VMState) : StepResult :=
  let (index, st1) := vmPop st
  let (object, st2) := vmPop st1
  match object with
  | .list xs =>
      if !index.isNumber then
        panicWith st2 "List index must be a number."
      else
        let i := ratTrunc index.asNumber
        if 0 ≤ i ∧ i < xs.length then
          .next (vmPush st2 (xs.getD i.toNat RyValue.nil))
        else
          panicWith st2 "List index out of bounds."
  | .map entries =>
      match mapFind entries index with
      | some v => .next (vmPush st2 v)
      | none => panicWith st2 ("Key '" ++ ryToString index ++ "' not found in map.")
  | .str s =>
      if !index.isNumber then
        panicWith st2 "String index must be a number."
      else
        let i := ratTrunc index.asNumber
        if 0 ≤ i ∧ i < s.length then
          .next (vmPush st2 (RyValue.str (String.mk [s.toList.getD i.toNat ' '])))
        else
          panicWith st2 "String index out of bounds."
  | _ => panicWith st2 "Can only index lists, maps, and strings."

/-- OP_SET_INDEX, vm.cpp lines 799-825: pop value, index, object.  For
a list, only the index's type is checked; the store
`(*list)[(int) index.asNumber()] = value` is then performed with no
bounds check (represented by the listStore outcome).  Strings,
instances and all other kinds panic. -/
def opSetIndex (st : VMState) : StepResult :=
  let (value, st1) := vmPop st
  let (index, st2) := vmPop st1
  let (object, st3) := vmPop st2
  match object with
  | .list xs =>
      if !index.isNumber then
        panicWith st3 "List index must be a number."
      else
        .listStore st3 xs (ratTrunc index.asNumber) value
  | .str _ => panicWith st3 "Strings are immutable and do not support index assignment."
  | .inst _ _ _ => panicWith st3 "Instances do not support index assignment."
  | _ => panicWith st3 "Only lists support index assignment."

end RySpec

namespace RySpec

/-! ## OP_GET_PROPERTY (vm.cpp lines 731-798) -/

/-- Result of OP_GET_PROPERTY at the value-stack level: keep
dispatching with the given stack, or runtimeError + trigger_panic with
the given message. -/
inductive PropResult : Type
  | ok (stack : List RyValue)
  | panicRaised (stack : List RyValue) (msg : String)

/-- OP_GET_PROPERTY, vm.cpp lines 731-798, acting on the value stack
(object at the top).  The "len" branch comes first: it pops the object
unconditionally and pushes a size only when the object is a list,
string or map — for every other kind it pushes nothing and breaks, so
the instruction nets -1 and raises no panic.  Then "pop" pushes the
ry_pop native above the receiver; then map keys, instance fields,
instance methods (bound), class methods; otherwise the object is
popped and a panic is raised. -/
def opGetProperty (propertyName : String) (stack : List RyValue) : PropResult :=
  let object := stack.getLastD RyValue.nil
  let popped := stack.dropLast
  let notFound : PropResult :=
    .panicRaised (popped ++ [RyValue.str ("Property '" ++ propertyName ++ "' not found on type.")])
      ("Property '" ++ propertyName ++ "' not found on type.")
  if propertyName = "len" then
    match object with
    | .list xs => .ok (popped ++ [RyValue.num xs.length])
    | .str s => .ok (popped ++ [RyValue.num s.length])
    | .map entries => .ok (popped ++ [RyValue.num entries.length])
    | _ => .ok popped
  else if propertyName = "pop" then
    .ok (stack ++ [RyValue.native "ry_pop" 0])
  else
    match object with
    | .map entries =>
        match mapFind entries (RyValue.str propertyName) with
        | some v => .ok (popped ++ [v])
        | none => notFound
    | .inst _ fields classMethods =>
        match fields.lookup propertyName with
        | some v => .ok (popped ++ [v])
        | none =>
            match classMethods.lookup propertyName with
            | some m => .ok (popped ++ [RyValue.boundMethod object m])
            | none => notFound
    | .cls _ methods =>
        match methods.lookup propertyName with
        | some m => .ok (popped ++ [m])
        | none => notFound
    | _ => notFound

end RySpec

namespace RySpec

/-! ## OP_FOR_EACH_NEXT (vm.cpp lines 535-588) -/

/-- Outcome of one OP_FOR_EACH_NEXT step.  engineExit is the fatal
stack-corruption diagnostic (exit(1)) taken when the index slot does
not hold a number; yield overwrites peek(0) with the new index and
pushes the current element; exitJump takes the 16-bit exit offset;
panicMsg is runtimeError + trigger_panic. -/
inductive ForEachStep : Type
  | engineExit
  | yield (newIndex : RyValue) (current : RyValue)
  | exitJump
  | panicMsg (msg : String)

/-- OP_FOR_EACH_NEXT, vm.cpp lines 535-587, as a function of peek(1)
(the collection) and peek(0) (the integer index).  For a range the
current value is start + index and the bounds test is
`current < end` when `start < end`, else `current > end`; in bounds
means store index+1 and push current.  For a list, `index <
list->size()` (the C++ int/size_t comparison rejects negative indices,
matching the 0 ≤ index conjunct here) means store index+1 and push the
element.  Every other collection kind panics. -/
def opForEachNext (collectionValue indexValue : RyValue) : ForEachStep :=
  let index : ℤ := ratTrunc indexValue.asNumber
  if !indexValue.isNumber then
    .engineExit
  else
    match collectionValue with
    | .range rstart rend =>
        let current : ℚ := rstart + (index : ℚ)
        let isInBounds : Bool := if rstart < rend then current < rend else current > rend
        if isInBounds then
          .yield (RyValue.num ((index : ℚ) + 1)) (RyValue.num current)
        else
          .exitJump
    | .list xs =>
        if 0 ≤ index ∧ index < (xs.length : ℤ) then
          .yield (RyValue.num ((index : ℚ) + 1)) (xs.getD index.toNat RyValue.nil)
        else
          .exitJump
    | _ => .panicMsg "Can only use 'each' on lists or ranges."

/-- The sequence of values a `foreach` over a range visits, obtained by
iterating opForEachNext from a given index slot value; fuel bounds the
number of steps examined. -/
def forEachRangeVisits (rstart rend : ℚ) : ℚ → Nat → List ℚ
  | _, 0 => []
  | indexValue, fuel + 1 =>
      match opForEachNext (RyValue.range rstart rend) (RyValue.num indexValue) with
      | .yield (RyValue.num newIndex) (RyValue.num current) =>
          current :: forEachRangeVisits rstart rend newIndex fuel
      | _ => []

/-! ## Dispatch-entry check and OP_CALL (vm.cpp lines 161-168, 450-460) -/

/-- The per-dispatch stack check, vm.cpp lines 161-168: before each
instruction fetch the VM panics on `stackTop < stack` (underflow) or
`stackTop >= stack + STACK_MAX` (overflow).  It inspects only the
value-stack cursor — the frame count is not examined anywhere in the
dispatch loop. -/
def dispatchStackCheck (stackTop : ℤ) : Option String :=
  if stackTop < 0 then some "Stack Underflow! Pointer: %p, Base: %p"
  else if (STACK_MAX : ℤ) ≤ stackTop then some "Stack Overflow!"
  else none

/-- The OP_CALL closure branch, vm.cpp lines 450-460: arity mismatch
raises a panic; otherwise `frames[frameCount++]` is written — the new
frame count is returned.  No bound on frameCount is checked before the
write (frames has FRAMES_MAX = 64 entries). -/
def opCallClosureBranch (frameCount : Nat) (argCount arity : Nat) :
    Option Nat :=
  if argCount ≠ arity then none
  else some (frameCount + 1)

/-! ## Compiler closure emission (compiler.cpp lines 39-75, 575-610) -/

/-- Compiler upvalue entry, compiler.h lines 24-27. -/
structure UpvalueC where
  index : Nat
  isLocal : Bool

/-- RyFunction, summarized to the fields the claims read.  Modelled
from the spec: func.h (struct RyFunction) is not under src/; the
spec's §3.1 data model gives function = {name, arity, upvalueCount,
chunk}, and both compiler paths build it with
`std::make_shared<Frontend::RyFunction>()`, whose value
initialization zeroes the int field, so a freshly constructed
function has upvalueCount 0 until the compiler assigns it. -/
structure RyFunctionC where
  name : String
  arity : Nat
  upvalueCount : Nat := 0

/-- The (isLocal, index) byte pairs written after the OP_CLOSURE
operand, compiler.cpp lines 71-74 and 604-607: one pair per
sub-compiler upvalue. -/
def emitUpvaluePairs (upvalues : List UpvalueC) : List Nat :=
  upvalues.flatMap (fun u => [if u.isLocal then 1 else 0, u.index])

/-- Compiler::visitFunctionStmt closure emission, compiler.cpp lines
575-610: build the RyFunction, emit OP_CLOSURE + constant index, set
function->upvalueCount to the sub-compiler's upvalue count (line 602),
then emit the pairs.  Returns the function and the operand bytes that
follow the OP_CLOSURE constant index. -/
def visitFunctionStmtClosure (name : String) (arity : Nat)
    (subUpvalues : List UpvalueC) : RyFunctionC × List Nat :=
  ({ name := name, arity := arity, upvalueCount := subUpvalues.length },
   emitUpvaluePairs subUpvalues)

/-- Compiler::compileMethod closure emission, compiler.cpp lines
39-75: build the RyFunction, emit OP_CLOSURE + constant index, then
emit the pairs (lines 71-74).  Unlike visitFunctionStmt, no statement
assigns function->upvalueCount, so it keeps its freshly constructed
value. -/
def compileMethodClosure (name : String) (arity : Nat)
    (subUpvalues : List UpvalueC) : RyFunctionC × List Nat :=
  ({ name := name, arity := arity },
   emitUpvaluePairs subUpvalues)

/-- OP_CLOSURE, vm.cpp lines 698-714: the VM reads exactly
function->upvalueCount (isLocal, index) pairs — 2·upvalueCount operand
bytes — after the constant index. -/
def opClosureOperandBytes (f : RyFunctionC) (following : List Nat) : List Nat :=
  following.take (2 * f.upvalueCount)

end RySpec

namespace RySpec

/-! ## Lexer string scanner (lexer.cpp lines 202-278) -/

/-- The token kinds Lexer::str can emit. -/
inductive LexTok : Type
  | strTok (s : String)
  | plusTok
  | identTok (s : String)
deriving DecidableEq

/-- Result of scanning one string literal: the tokens emitted, plus
which "Unterminated ..." report (if any) ended the scan early. -/
inductive StrScanResult : Type
  | done (toks : List LexTok)
  | unterminatedString (toks : List LexTok)
  | unterminatedInterp (toks : List LexTok)
deriving DecidableEq

/-- Prepend already-emitted tokens to a scan result. -/
def consTokens (ts : List LexTok) : StrScanResult → StrScanResult
  | .done l => .done (ts ++ l)
  | .unterminatedString l => .unterminatedString (ts ++ l)
  | .unterminatedInterp l => .unterminatedInterp (ts ++ l)

/-- Escape-sequence mapping, lexer.cpp lines 212-236: recognized
escapes translate, any other escaped character is kept literally. -/
def escapeChar (c : Char) : Char :=
  match c with
  | 'n' => '\n'
  | 't' => '\t'
  | 'r' => '\r'
  | '"' => '"'
  | '\\' => '\\'
  | '$' => '$'
  | other => other

/-- Lexer::str, lexer.cpp lines 202-278, on the characters after the
opening quote, with the accumulated literal segment as second
argument.  The loop runs until the closing quote (emitting the final
segment, even when empty) or the end of input ("Unterminated
string."); a backslash consumes the next character through
escapeChar; the sequence dollar + brace starts an interpolation:
the accumulated segment is emitted as a STRING token followed by a
synthetic PLUS **only when it is non-empty** (lexer.cpp line 239),
then the braced name is read (unterminated brace reports
"Unterminated interpolation."), an IDENTIFIER token and another PLUS
are emitted, and scanning resumes with an empty segment. -/
def lexerStr : List Char → List Char → StrScanResult
  | [], _ => .unterminatedString []
  | c :: rest, value =>
    if c = '"' then
      .done [.strTok (String.mk value)]
    else if c = '\\' then
      match rest with
      | [] => .unterminatedString []
      | e :: rest2 => lexerStr rest2 (value ++ [escapeChar e])
    else if c = '$' ∧ rest.head? = some '{' then
      let emitted := if value ≠ [] then [.strTok (String.mk value), .plusTok] else ([] : List LexTok)
      let afterBrace := rest.tail
      let nameChars := afterBrace.takeWhile (fun ch => ch ≠ '}')
      match h : afterBrace.dropWhile (fun ch => ch ≠ '}') with
      | [] => .unterminatedInterp emitted
      | _ :: rest4 =>
          consTokens (emitted ++ [.identTok (String.mk nameChars), .plusTok])
            (lexerStr rest4 [])
    else
      lexerStr rest (value ++ [c])
termination_by cs _ => cs.length
decreasing_by
  · simp only [List.length_cons]; omega
  · simp only [List.length_cons]
    have h1 : rest4.length < (afterBrace.dropWhile (fun ch => ch ≠ '}')).length := by
      rw [h]; simp
    have h2 : (afterBrace.dropWhile (fun ch => ch ≠ '}')).length ≤ afterBrace.length :=
      (List.dropWhile_sublist _).length_le
    have h3 : afterBrace.length ≤ rest.length := by
      simp [afterBrace, List.length_tail]
    omega
  · simp

/-! ## CLI driver (main.cpp lines 21-57 and 110-133) -/

/-- What the lex/parse/compile/run pipeline inside interpret() came
to: a parse error returns early (line 37-39), a compile failure prints
and returns (line 44-47), otherwise vm.interpret ran and produced an
InterpretResult (line 52). -/
inductive PipelineOutcome : Type
  | parseError
  | compileFail
  | ran (r : InterpretResult)
deriving DecidableEq

/-- interpret(), main.cpp lines 21-57.  Its return type is void: in
every outcome — including INTERPRET_RUNTIME_ERROR from vm.interpret on
line 52 — nothing is returned to the caller. -/
def interpretDriver : PipelineOutcome → Unit := fun _ => ()

/-- The `ry run <path>` branch of main(), main.cpp lines 116-123 and
132: return 1 if the file cannot be opened; otherwise call the
void interpret() and fall through to `return 0`. -/
def mainRunExit (fileOpened : Bool) (outcome : PipelineOutcome) : Nat :=
  if !fileOpened then 1
  else
    let _ := interpretDriver outcome
    0

end RySpec

namespace RySpec

/-! ## Helper lemmas -/

/-- Popping a stack written as `s ++ [v]` yields `v` and leaves `s`. -/
theorem vmPop_concat (s : List RyValue) (v : RyValue)
    (fr : List CallFrameM) (fc : Nat) (ou : List Nat) (ps : List ControlBlock) :
    vmPop ⟨s ++ [v], fr, fc, ou, ps⟩ = (v, ⟨s, fr, fc, ou, ps⟩) := by
  simp [vmPop]

/-- After closeUpvalues, every remaining open upvalue sits strictly
below the close point, provided the list was in the descending order
the VM maintains. -/
theorem closeUpvalues_lt (l : List Nat) (n : Nat) (hp : l.Pairwise (· ≥ ·)) :
    ∀ x ∈ closeUpvalues l n, x < n := by
  induction l with
  | nil => simp [closeUpvalues]
  | cons a t ih =>
      intro x hx
      rcases List.pairwise_cons.mp hp with ⟨ha, ht⟩
      by_cases hna : n ≤ a
      · have : closeUpvalues (a :: t) n = closeUpvalues t n := by
          simp [closeUpvalues, List.dropWhile_cons, hna]
        rw [this] at hx
        exact ih ht x hx
      · have : closeUpvalues (a :: t) n = a :: t := by
          simp [closeUpvalues, List.dropWhile_cons, hna]
        rw [this, List.mem_cons] at hx
        rcases hx with rfl | hx2
        · omega
        · have := ha x hx2
          omega

/-- Full computation of the recovery half of OP_PANIC on a stack with
the message on top and a ControlBlock available. -/
theorem opPanic_recover (s : List RyValue) (m : String) (block : ControlBlock)
    (rest : List ControlBlock) (frames : List CallFrameM) (fc : Nat)
    (ou : List Nat) (f : CallFrameM)
    (hf : frames[block.frameDepth - 1]? = some f) :
    opPanic ⟨s ++ [RyValue.str m], frames, fc, ou, block :: rest⟩ =
      .recovered ⟨s.take block.stackDepth ++ [RyValue.str m],
        frames.set (block.frameDepth - 1) { f with ip := block.handlerIP },
        block.frameDepth, closeUpvalues ou block.stackDepth, rest⟩ := by
  simp only [opPanic, vmPop, List.getLastD_concat, List.dropLast_concat]
  rw [hf]
  simp [RyValue.isNil, ryToString]

/-- Full computation of the halting half of OP_PANIC: empty
panicStack, message on top, a current frame present. -/
theorem opPanic_halt (s : List RyValue) (m : String)
    (frames : List CallFrameM) (fc : Nat) (ou : List Nat) (f : CallFrameM)
    (hfc : 0 < fc) (hf : frames[fc - 1]? = some f) :
    opPanic ⟨s ++ [RyValue.str m], frames, fc, ou, []⟩ =
      .halted (some (f.chunk.lines.getD (f.ip - 1) 0, f.chunk.columns.getD (f.ip - 1) 0))
        m .runtimeError := by
  simp only [opPanic, vmPop, List.getLastD_concat, List.dropLast_concat]
  rw [if_pos hfc, hf]
  simp [RyValue.isNil, ryToString]

end RySpec

namespace RySpec

/-- C1: whenever OP_PANIC (or any runtime error funneled to
trigger_panic) executes with a non-empty panicStack, the VM pops the
topmost ControlBlock, sets frameCount to block.frameDepth, truncates
the value stack to block.stackDepth slots, closes every open upvalue
at or above the new stackTop, pushes the panic message onto the
reduced stack, and moves the (new) current frame's ip to the chunk's
code base plus block.handlerIP; with an empty panicStack it reports
the message at the current instruction's recorded (line, column) and
interpret returns INTERPRET_RUNTIME_ERROR. -/
theorem opPanic_protocol :
    (∀ (st : VMState) (block : ControlBlock) (rest : List ControlBlock)
       (s : List RyValue) (m : String) (f : CallFrameM),
       st.panicStack = block :: rest →
       st.stack = s ++ [RyValue.str m] →
       block.stackDepth ≤ s.length →
       st.openUpvalues.Pairwise (· ≥ ·) →
       st.frames[block.frameDepth - 1]? = some f →
       ∃ st', opPanic st = .recovered st' ∧
         st'.frameCount = block.frameDepth ∧
         st'.stack = s.take block.stackDepth ++ [RyValue.str m] ∧
         st'.stack.length = block.stackDepth + 1 ∧
         st'.panicStack = rest ∧
         (∀ loc ∈ st'.openUpvalues, loc < block.stackDepth) ∧
         st'.frames[block.frameDepth - 1]? = some { f with ip := block.handlerIP }) ∧
    (∀ (st : VMState) (s : List RyValue) (m : String) (f : CallFrameM),
       st.panicStack = [] →
       st.stack = s ++ [RyValue.str m] →
       0 < st.frameCount →
       st.frames[st.frameCount - 1]? = some f →
       opPanic st = .halted
         (some (f.chunk.lines.getD (f.ip - 1) 0, f.chunk.columns.getD (f.ip - 1) 0))
         m .runtimeError) := by
  constructor
  · rintro ⟨stack, frames, fc, ou, ps⟩ block rest s m f hps hstack hdepth hpair hf
    dsimp only at hps hstack hf
    subst hps
    subst hstack
    refine ⟨_, opPanic_recover s m block rest frames fc ou f hf, rfl, rfl, ?_, rfl, ?_, ?_⟩
    · simp only [List.length_append, List.length_take, List.length_cons, List.length_nil]
      omega
    · exact closeUpvalues_lt ou block.stackDepth hpair
    · have hlt : block.frameDepth - 1 < frames.length := by
        rcases List.getElem?_eq_some_iff.mp hf with ⟨h, _⟩
        exact h
      simp [List.getElem?_set_self hlt]
  · rintro ⟨stack, frames, fc, ou, ps⟩ s m f hps hstack hfc hf
    dsimp only at hps hstack hfc hf
    subst hps
    subst hstack
    exact opPanic_halt s m frames fc ou f hfc hf

/-- Witness for C1 at a concrete state: recovery pops the block
⟨1, 5, 1⟩, truncates to one slot, closes the upvalues at 2 and 1,
pushes "boom", and redirects ip to 5; the same message with an empty
panicStack halts with INTERPRET_RUNTIME_ERROR reported at (40, 12). -/
theorem opPanic_protocol_witness :
    (∃ st', opPanic ⟨[RyValue.num 7, RyValue.num 8, RyValue.str "boom"],
        [⟨3, ⟨[0, 0, 0], [40, 40, 40], [10, 11, 12]⟩, 0⟩], 1, [2, 1],
        [⟨1, 5, 1⟩]⟩ = .recovered st' ∧
      st'.frameCount = 1 ∧
      st'.stack = [RyValue.num 7].take 1 ++ [RyValue.str "boom"] ∧
      st'.stack.length = 2 ∧
      st'.panicStack = [] ∧
      (∀ loc ∈ st'.openUpvalues, loc < 1) ∧
      st'.frames[0]? = some ⟨5, ⟨[0, 0, 0], [40, 40, 40], [10, 11, 12]⟩, 0⟩) ∧
    opPanic ⟨[RyValue.num 7, RyValue.str "boom"],
        [⟨3, ⟨[0, 0, 0], [40, 40, 40], [10, 11, 12]⟩, 0⟩], 1, [], []⟩ =
      .halted (some (40, 12)) "boom" .runtimeError := by
  constructor
  · have h := opPanic_protocol.1
      ⟨[RyValue.num 7, RyValue.num 8, RyValue.str "boom"],
        [⟨3, ⟨[0, 0, 0], [40, 40, 40], [10, 11, 12]⟩, 0⟩], 1, [2, 1], [⟨1, 5, 1⟩]⟩
      ⟨1, 5, 1⟩ [] [RyValue.num 7, RyValue.num 8] "boom"
      ⟨3, ⟨[0, 0, 0], [40, 40, 40], [10, 11, 12]⟩, 0⟩
      rfl rfl (by decide) (by decide) rfl
    rcases h with ⟨st', h1, h2, h3, h4, h5, h6, h7⟩
    exact ⟨st', h1, h2, h3, h4, h5, h6, h7⟩
  · exact opPanic_protocol.2
      ⟨[RyValue.num 7, RyValue.str "boom"],
        [⟨3, ⟨[0, 0, 0], [40, 40, 40], [10, 11, 12]⟩, 0⟩], 1, [], []⟩
      [RyValue.num 7] "boom" ⟨3, ⟨[0, 0, 0], [40, 40, 40], [10, 11, 12]⟩, 0⟩
      rfl rfl (by decide) rfl

end RySpec

namespace RySpec

/-- C6: OP_DIVIDE with a zero right operand inside an attempt block
pushes no quotient; it enters the panic protocol, which transfers
control to the fail handler (ip := the block's handlerIP) with the
string "Division by zero" pushed at stack slot block.stackDepth —
exactly the slot the fail handler's local variable reads. -/
theorem opDivide_by_zero_recovers
    (st : VMState) (block : ControlBlock) (rest : List ControlBlock)
    (s : List RyValue) (a : RyValue) (f : CallFrameM)
    (hps : st.panicStack = block :: rest)
    (hstack : st.stack = s ++ [a, RyValue.num 0])
    (hdepth : block.stackDepth ≤ s.length)
    (hf : st.frames[block.frameDepth - 1]? = some f) :
    ∃ st', opDivide st = .panicked (.recovered st') ∧
      st'.stack = s.take block.stackDepth ++ [RyValue.str "Division by zero"] ∧
      st'.stack[block.stackDepth]? = some (RyValue.str "Division by zero") ∧
      st'.frames[block.frameDepth - 1]? = some { f with ip := block.handlerIP } ∧
      st'.frameCount = block.frameDepth ∧
      st'.panicStack = rest := by
  obtain ⟨stack, frames, fc, ou, ps⟩ := st
  dsimp only at hps hstack hf
  subst hps
  subst hstack
  have hsplit : s ++ [a, RyValue.num 0] = (s ++ [a]) ++ [RyValue.num 0] := by simp
  have hpop : opDivide ⟨s ++ [a, RyValue.num 0], frames, fc, ou, block :: rest⟩ =
      panicWith ⟨s, frames, fc, ou, block :: rest⟩ "Division by zero" := by
    rw [opDivide, hsplit, vmPop_concat]
    dsimp only
    rw [vmPop_concat]
    simp [RyValue.asNumber]
  rw [hpop]
  rw [panicWith, vmPush]
  dsimp only
  rw [opPanic_recover s "Division by zero" block rest frames fc ou f hf]
  refine ⟨_, rfl, rfl, ?_, ?_, rfl, rfl⟩
  · dsimp only
    have hlen : (s.take block.stackDepth).length = block.stackDepth := by
      rw [List.length_take]
      omega
    rw [List.getElem?_append_right (le_of_eq hlen), hlen]
    simp
  · dsimp only
    have hlt : block.frameDepth - 1 < frames.length := by
      rcases List.getElem?_eq_some_iff.mp hf with ⟨h, _⟩
      exact h
    simp [List.getElem?_set_self hlt]

/-- Witness for C6: dividing 10 by 0 under an attempt block ⟨0, 9, 1⟩
recovers with "Division by zero" at slot 0 and ip 9. -/
theorem opDivide_by_zero_recovers_witness :
    ∃ st', opDivide ⟨[RyValue.num 10, RyValue.num 0],
        [⟨2, ⟨[0, 0], [1, 1], [1, 2]⟩, 0⟩], 1, [], [⟨0, 9, 1⟩]⟩ = .panicked (.recovered st') ∧
      st'.stack = [] ++ [RyValue.str "Division by zero"] ∧
      st'.stack[0]? = some (RyValue.str "Division by zero") ∧
      st'.frames[0]? = some ⟨9, ⟨[0, 0], [1, 1], [1, 2]⟩, 0⟩ ∧
      st'.frameCount = 1 ∧
      st'.panicStack = [] := by
  have h := opDivide_by_zero_recovers
    ⟨[RyValue.num 10, RyValue.num 0], [⟨2, ⟨[0, 0], [1, 1], [1, 2]⟩, 0⟩], 1, [], [⟨0, 9, 1⟩]⟩
    ⟨0, 9, 1⟩ [] [] (RyValue.num 10) ⟨2, ⟨[0, 0], [1, 1], [1, 2]⟩, 0⟩
    rfl rfl (by decide) rfl
  rcases h with ⟨st', h1, h2, h3, h4, h5, h6⟩
  exact ⟨st', h1, h2, h3, h4, h5, h6⟩

end RySpec

namespace RySpec

/-- The range branch of OP_FOR_EACH_NEXT at an integer start, end and
index: current = start + index is in bounds iff current < end when
start < end (the index is never decremented in either direction). -/
theorem forEachNext_asc_step (m n i : ℤ) (hmn : m < n) (h0 : 0 ≤ i) :
    opForEachNext (RyValue.range m n) (RyValue.num i) =
      if m + i < n then .yield (RyValue.num ((i : ℚ) + 1)) (RyValue.num ((m : ℚ) + i))
      else .exitJump := by
  have h0' : (0 : ℚ) ≤ (i : ℚ) := by exact_mod_cast h0
  have hmn' : (m : ℚ) < (n : ℚ) := by exact_mod_cast hmn
  by_cases hin : m + i < n
  · have hin' : (m : ℚ) + (i : ℚ) < (n : ℚ) := by exact_mod_cast hin
    rw [if_pos hin]
    simp [opForEachNext, RyValue.isNumber, RyValue.asNumber, ratTrunc, h0', hmn', hin',
      Int.floor_intCast]
  · have hin' : ¬((m : ℚ) + (i : ℚ) < (n : ℚ)) := by exact_mod_cast hin
    rw [if_neg hin]
    simp [opForEachNext, RyValue.isNumber, RyValue.asNumber, ratTrunc, h0', hmn', hin',
      Int.floor_intCast]

/-- The ascending half of the foreach contract holds: iterating the
range branch of OP_FOR_EACH_NEXT over `[m, n)` with m < n from index i
visits m+i, m+i+1, ..., n-1 and then exits, given enough fuel.  In
particular `1 to 4` visits 1, 2, 3 (whose sum is 6). -/
theorem forEachRangeVisits_asc (m n : ℤ) (hmn : m < n) :
    ∀ (k i fuel : ℕ), (n - m).toNat = i + k → k ≤ fuel →
      forEachRangeVisits (m : ℚ) (n : ℚ) (i : ℚ) fuel =
        (List.range k).map (fun j : ℕ => (((m + (i : ℤ) + (j : ℤ)) : ℤ) : ℚ)) := by
  intro k
  induction k with
  | zero =>
      intro i fuel hk _
      have hexit : ¬(m + (i : ℤ) < n) := by omega
      cases fuel with
      | zero => simp [forEachRangeVisits]
      | succ f =>
          rw [forEachRangeVisits]
          have hstep := forEachNext_asc_step m n i hmn (Int.natCast_nonneg i)
          rw [if_neg hexit] at hstep
          rw [show ((i : ℚ)) = (((i : ℤ)) : ℚ) from by push_cast; ring]
          rw [hstep]
          dsimp only
          simp
  | succ k ih =>
      intro i fuel hk hfuel
      have hin : m + (i : ℤ) < n := by omega
      cases fuel with
      | zero => omega
      | succ f =>
          rw [forEachRangeVisits]
          have hstep := forEachNext_asc_step m n i hmn (Int.natCast_nonneg i)
          rw [if_pos hin] at hstep
          rw [show ((i : ℚ)) = (((i : ℤ)) : ℚ) from by push_cast; ring]
          rw [hstep]
          have hnext : ((i : ℤ) : ℚ) + 1 = (((i + 1 : ℕ)) : ℚ) := by push_cast; ring
          rw [hnext]
          dsimp only
          rw [ih (i + 1) f (by omega) (by omega)]
          rw [List.range_succ_eq_map, List.map_cons, List.map_map]
          congr 1
          · push_cast; ring
          · apply List.map_congr_left
            intro j hj
            simp only [Function.comp]
            push_cast
            ring

/-- C2: evaluated at the failing direction (start > end, here the
range `4 to 1`), every iteration of the range branch of
OP_FOR_EACH_NEXT stays in bounds: index k yields the value 4+k and
stores index k+1, so the exit jump is never taken — the loop ascends
4, 5, 6, ... forever instead of proceeding in decrementing direction
and terminating. -/
theorem forEachNext_desc_range_never_exits (k : ℕ) :
    opForEachNext (RyValue.range 4 1) (RyValue.num k) =
      .yield (RyValue.num (k + 1)) (RyValue.num (4 + k)) := by
  have h0 : (0 : ℚ) ≤ (k : ℚ) := Nat.cast_nonneg k
  simp only [opForEachNext, RyValue.isNumber, RyValue.asNumber, Bool.not_true,
    ratTrunc, if_pos h0, Int.floor_natCast]
  norm_num
  intro h
  exfalso
  linarith

end RySpec

namespace RySpec

/-- C3: evaluated at a 2-element list and index 5.  The read
(OP_GET_INDEX) raises a recoverable panic: under the attempt block
⟨0, 9, 1⟩ it recovers with "List index out of bounds." pushed for the
fail handler.  The write (OP_SET_INDEX), by contrast, raises no panic:
it issues the raw vector store `(*list)[5] = 9` even though 5 is not
below the list length 2 — storage outside the list is accessed
instead of entering the panic protocol. -/
theorem list_index_oob_read_panics_write_unchecked :
    (opGetIndex ⟨[RyValue.list [RyValue.num 1, RyValue.num 2], RyValue.num 5],
        [⟨2, ⟨[0, 0], [1, 1], [1, 2]⟩, 0⟩], 1, [], [⟨0, 9, 1⟩]⟩ =
      .panicked (.recovered ⟨[RyValue.str "List index out of bounds."],
        [⟨9, ⟨[0, 0], [1, 1], [1, 2]⟩, 0⟩], 1, [], []⟩)) ∧
    (opSetIndex ⟨[RyValue.list [RyValue.num 1, RyValue.num 2], RyValue.num 5, RyValue.num 9],
        [⟨2, ⟨[0, 0], [1, 1], [1, 2]⟩, 0⟩], 1, [], [⟨0, 9, 1⟩]⟩ =
      .listStore ⟨[], [⟨2, ⟨[0, 0], [1, 1], [1, 2]⟩, 0⟩], 1, [], [⟨0, 9, 1⟩]⟩
        [RyValue.num 1, RyValue.num 2] 5 (RyValue.num 9)) ∧
    ¬((5 : ℤ) < (([RyValue.num 1, RyValue.num 2] : List RyValue).length : ℤ)) := by
  refine ⟨?_, ?_, by norm_num⟩
  · have h1 : opGetIndex ⟨[RyValue.list [RyValue.num 1, RyValue.num 2], RyValue.num 5],
        [⟨2, ⟨[0, 0], [1, 1], [1, 2]⟩, 0⟩], 1, [], [⟨0, 9, 1⟩]⟩ =
        panicWith ⟨[], [⟨2, ⟨[0, 0], [1, 1], [1, 2]⟩, 0⟩], 1, [], [⟨0, 9, 1⟩]⟩
          "List index out of bounds." := by
      simp [opGetIndex, vmPop, RyValue.isNumber, RyValue.asNumber, ratTrunc]
    rw [h1, panicWith, vmPush]
    dsimp only
    rw [opPanic_recover [] "List index out of bounds." ⟨0, 9, 1⟩ []
      [⟨2, ⟨[0, 0], [1, 1], [1, 2]⟩, 0⟩] 1 [] ⟨2, ⟨[0, 0], [1, 1], [1, 2]⟩, 0⟩ rfl]
    rfl
  · simp [opSetIndex, vmPop, RyValue.isNumber, RyValue.asNumber, ratTrunc]

/-- C4: nothing bounds the frame depth.  The dispatch-entry check
inspects only the value-stack cursor (it accepts any depth below
STACK_MAX = 256, e.g. 65), and the OP_CALL closure branch increments
frameCount unconditionally once the arity matches — at frameCount =
FRAMES_MAX = 64 it writes frames[64], one past the fixed 64-entry
array, producing frameCount 65 > 64 with no panic raised. -/
theorem opCall_no_frame_depth_check :
    (∀ fc ar : Nat, opCallClosureBranch fc ar ar = some (fc + 1)) ∧
    dispatchStackCheck 65 = none ∧
    opCallClosureBranch FRAMES_MAX 0 0 = some (FRAMES_MAX + 1) ∧
    ¬(FRAMES_MAX + 1 ≤ FRAMES_MAX) := by
  refine ⟨fun fc ar => ?_, ?_, ?_, by decide⟩
  · simp [opCallClosureBranch]
  · simp [dispatchStackCheck, STACK_MAX]
  · simp [opCallClosureBranch]

/-- C5: for an ordinary function the compiler sets upvalueCount to the
sub-compiler's upvalue count and emits exactly one (isLocal, index)
byte pair per upvalue, so OP_CLOSURE reads exactly what was emitted;
but compileMethod never assigns upvalueCount, so a method whose
sub-compiler captured one upvalue still carries upvalueCount 0 while
two operand bytes follow OP_CLOSURE — the VM reads none of them. -/
theorem compileMethod_upvalueCount_mismatch :
    ((visitFunctionStmtClosure "f" 0 [⟨0, true⟩]).1.upvalueCount = 1 ∧
      2 * (visitFunctionStmtClosure "f" 0 [⟨0, true⟩]).1.upvalueCount =
        (visitFunctionStmtClosure "f" 0 [⟨0, true⟩]).2.length ∧
      opClosureOperandBytes (visitFunctionStmtClosure "f" 0 [⟨0, true⟩]).1
        (visitFunctionStmtClosure "f" 0 [⟨0, true⟩]).2 = [1, 0]) ∧
    ((compileMethodClosure "m" 0 [⟨0, true⟩]).1.upvalueCount = 0 ∧
      (compileMethodClosure "m" 0 [⟨0, true⟩]).2.length = 2 ∧
      opClosureOperandBytes (compileMethodClosure "m" 0 [⟨0, true⟩]).1
        (compileMethodClosure "m" 0 [⟨0, true⟩]).2 = []) := by
  refine ⟨⟨rfl, rfl, rfl⟩, rfl, rfl, rfl⟩

end RySpec

namespace RySpec

/-- C7 counterexample: a script that ends in an unrecovered runtime
panic (vm.interpret returned INTERPRET_RUNTIME_ERROR) still exits with
code 0, because interpret() in main.cpp discards the VM's result and
main falls through to `return 0`. -/
theorem mainRunExit_ignores_vm_result :
    mainRunExit true (.ran .runtimeError) = 0 := rfl

/-- C7 (amended): `ry run <path>` exits 0 whenever the file opens —
including when the script ends in an unrecovered runtime panic, since
interpret() discards the InterpretResult — and exits 1 exactly when
the file cannot be opened. -/
theorem mainRunExit_spec :
    (∀ r : InterpretResult, mainRunExit true (.ran r) = 0) ∧
    (∀ o : PipelineOutcome, mainRunExit false o = 1) :=
  ⟨fun _ => rfl, fun _ => rfl⟩

/-- C9: RyValue::operator! (compiled from prefixed `!`, executed by
OP_NOT) yields nil for every operand that is not a bool — in
particular the result of `!0` and `!nil` is nil, which isTruthy tests
as falsey — while on a bool it yields the negated bool, and OP_NOT
replaces the stack top accordingly. -/
theorem opNot_non_bool (v : RyValue) (h : v.isBool = false) :
    ryNot v = RyValue.nil ∧ isTruthy (ryNot v) = false ∧
    (∀ (s : List RyValue) (fr : List CallFrameM) (fc : Nat) (ou : List Nat)
       (ps : List ControlBlock),
       opNot ⟨s ++ [v], fr, fc, ou, ps⟩ = .next ⟨s ++ [RyValue.nil], fr, fc, ou, ps⟩) ∧
    (∀ b, ryNot (RyValue.boolean b) = RyValue.boolean (!b)) := by
  have hnil : ryNot v = RyValue.nil := by
    cases v <;> first
      | rfl
      | simp [RyValue.isBool] at h
  refine ⟨hnil, by rw [hnil]; rfl, ?_, fun b => rfl⟩
  intro s fr fc ou ps
  rw [opNot, vmPop_concat]
  dsimp only
  rw [vmPush, hnil]

/-- Witness for C9 at the value 0 (a number, not a bool). -/
theorem opNot_non_bool_witness :
    (RyValue.num 0).isBool = false ∧
    (ryNot (RyValue.num 0) = RyValue.nil ∧ isTruthy (ryNot (RyValue.num 0)) = false ∧
      (∀ (s : List RyValue) (fr : List CallFrameM) (fc : Nat) (ou : List Nat)
         (ps : List ControlBlock),
         opNot ⟨s ++ [RyValue.num 0], fr, fc, ou, ps⟩ =
           .next ⟨s ++ [RyValue.nil], fr, fc, ou, ps⟩) ∧
      (∀ b, ryNot (RyValue.boolean b) = RyValue.boolean (!b))) :=
  ⟨rfl, opNot_non_bool (RyValue.num 0) rfl⟩

/-- C10: OP_GET_PROPERTY of "len" on a value that is not a list,
string or map pops the object, pushes no replacement and raises no
panic — the instruction's net stack effect is -1 (the stack s ++ [v]
becomes s) instead of a property read's net 0. -/
theorem getProperty_len_non_collection (v : RyValue) (s : List RyValue)
    (h1 : v.isList = false) (h2 : v.isString = false) (h3 : v.isMap = false) :
    opGetProperty "len" (s ++ [v]) = .ok s := by
  cases v with
  | list xs => simp [RyValue.isList] at h1
  | str t => simp [RyValue.isString] at h2
  | map es => simp [RyValue.isMap] at h3
  | nil => simp [opGetProperty]
  | boolean b => simp [opGetProperty]
  | num d => simp [opGetProperty]
  | range a b => simp [opGetProperty]
  | func a b c => simp [opGetProperty]
  | closure a b c => simp [opGetProperty]
  | native a b => simp [opGetProperty]
  | inst a b c => simp [opGetProperty]
  | cls a b => simp [opGetProperty]
  | boundMethod a b => simp [opGetProperty]

/-- Witness for C10 at the number 3 with one value below it. -/
theorem getProperty_len_non_collection_witness :
    (RyValue.num 3).isList = false ∧ (RyValue.num 3).isString = false ∧
    (RyValue.num 3).isMap = false ∧
    opGetProperty "len" ([RyValue.num 7] ++ [RyValue.num 3]) = .ok [RyValue.num 7] :=
  ⟨rfl, rfl, rfl, getProperty_len_non_collection (RyValue.num 3) [RyValue.num 7] rfl rfl rfl⟩

end RySpec

namespace RySpec

/-- A character that is not a quote, a backslash or a dollar is simply
accumulated into the current segment. -/
theorem lexerStr_plain_cons (c : Char) (cs : List Char) (value : List Char)
    (h1 : c ≠ '"') (h2 : c ≠ '\\') (h3 : c ≠ '$') :
    lexerStr (c :: cs) value = lexerStr cs (value ++ [c]) := by
  rw [lexerStr.eq_def]
  dsimp only
  rw [if_neg h1, if_neg h2, if_neg (fun hh => h3 hh.1)]

/-- A run of plain characters is accumulated into the segment. -/
theorem lexerStr_plain_accum (sc : List Char) (tail' : List Char) (value : List Char)
    (h : ∀ c ∈ sc, c ≠ '"' ∧ c ≠ '\\' ∧ c ≠ '$') :
    lexerStr (sc ++ tail') value = lexerStr tail' (value ++ sc) := by
  induction sc generalizing value with
  | nil => simp
  | cons c cs ih =>
      obtain ⟨h1, h2, h3⟩ := h c (by simp)
      rw [List.cons_append, lexerStr_plain_cons c _ value h1 h2 h3]
      rw [ih (value ++ [c]) (fun c' hc' => h c' (by simp [hc']))]
      simp

/-- Scanning a braced name: takeWhile collects exactly the characters
before the closing brace and dropWhile stops at it. -/
theorem brace_scan (nc rest : List Char) (h : ∀ c ∈ nc, c ≠ '}') :
    (nc ++ '}' :: rest).takeWhile (fun ch => ch ≠ '}') = nc ∧
    (nc ++ '}' :: rest).dropWhile (fun ch => ch ≠ '}') = '}' :: rest := by
  induction nc with
  | nil => simp [List.takeWhile_cons, List.dropWhile_cons]
  | cons c cs ih =>
      obtain ⟨iht, ihd⟩ := ih (fun c' hc' => h c' (by simp [hc']))
      have hc : c ≠ '}' := h c (by simp)
      constructor
      · rw [List.cons_append, List.takeWhile_cons, if_pos (by simp [hc]), iht]
      · rw [List.cons_append, List.dropWhile_cons, if_pos (by simp [hc]), ihd]

/-- C8 (amended): on meeting an interpolation the lexer emits the
accumulated literal segment as a STRING token followed by a synthetic
PLUS only when the segment is non-empty — an empty segment emits
neither — then an IDENTIFIER token for the braced name, then another
PLUS, and resumes accumulating the rest of the string. -/
theorem lexerStr_interpolation (sc nc rest : List Char)
    (hsc : ∀ c ∈ sc, c ≠ '"' ∧ c ≠ '\\' ∧ c ≠ '$')
    (hnc : ∀ c ∈ nc, c ≠ '}') :
    lexerStr (sc ++ '$' :: '{' :: (nc ++ '}' :: rest)) [] =
      consTokens ((if sc ≠ [] then [.strTok (String.mk sc), .plusTok] else []) ++
          [.identTok (String.mk nc), .plusTok])
        (lexerStr rest []) := by
  rw [lexerStr_plain_accum sc _ [] hsc, List.nil_append]
  rw [lexerStr]
  rw [if_neg (by decide : ¬('$' : Char) = '"'), if_neg (by decide : ¬('$' : Char) = '\\')]
  rw [if_pos (by simp : ('$' : Char) = '$' ∧ (('{' :: (nc ++ '}' :: rest)).head? = some '{'))]
  obtain ⟨ht, hd⟩ := brace_scan nc rest hnc
  simp only [List.tail_cons, ht]
  split
  · next heq =>
      rw [hd] at heq
      cases heq
  · next head rest4 heq =>
      rw [hd] at heq
      injection heq with hh1 hh2
      rw [hh2]

/-- Witness for C8's amended statement at segment "a", name "x". -/
theorem lexerStr_interpolation_witness :
    (∀ c ∈ (['a'] : List Char), c ≠ '"' ∧ c ≠ '\\' ∧ c ≠ '$') ∧
    (∀ c ∈ (['x'] : List Char), c ≠ '}') ∧
    lexerStr (['a'] ++ '$' :: '{' :: (['x'] ++ '}' :: ['"'])) [] =
      consTokens ((if (['a'] : List Char) ≠ [] then
            [.strTok (String.mk ['a']), .plusTok] else []) ++
          [.identTok (String.mk ['x']), .plusTok])
        (lexerStr ['"'] []) :=
  ⟨by decide, by decide, lexerStr_interpolation ['a'] ['x'] ['"'] (by decide) (by decide)⟩

/-- C8 counterexample: for the literal `"${x}"` the segment before the
interpolation is empty, and the code (lexer.cpp line 239) skips both
the STRING token and the first PLUS: the emitted tokens are
IDENTIFIER "x", PLUS, STRING "" — not the claimed STRING "", PLUS,
IDENTIFIER "x", PLUS, STRING "". -/
theorem lexerStr_empty_segment_cex :
    lexerStr ['$', '{', 'x', '}', '"'] [] =
      .done [.identTok "x", .plusTok, .strTok ""] ∧
    (.done [.identTok "x", .plusTok, .strTok ""] : StrScanResult) ≠
      .done [.strTok "", .plusTok, .identTok "x", .plusTok, .strTok ""] := by
  constructor
  · rw [lexerStr.eq_def]
    dsimp only
    rw [if_neg (by decide : ¬('$' : Char) = '"'), if_neg (by decide : ¬('$' : Char) = '\\'),
      if_pos (⟨rfl, rfl⟩ : ('$' : Char) = '$' ∧ ((['{', 'x', '}', '"'] : List Char).head? = some '{'))]
    split
    · next heq => exact absurd heq (by decide)
    · next head rest4 heq =>
        have hdw : List.dropWhile (fun ch => decide (ch ≠ '}'))
            (['{', 'x', '}', '"'] : List Char).tail = ['}', '"'] := by decide
        rw [hdw] at heq
        injection heq with hh1 hh2
        subst hh2
        rw [lexerStr.eq_def]
        dsimp only [consTokens]
        decide
  · decide

end RySpec
